import Mathlib

/-!
Verification of the connection-broker state machine of the `TabShareExtension`
background script (`src/unnamed/part_000`).

The broker owns two insertion-ordered maps (JavaScript `Map` semantics):
`_pendingTabSelection` (selector tab id to a pending relay connection, with an
optional inactivity timer) and `_activeConnections` (tab id to the bound relay
connection), plus a legacy scalar `_lastConnectedTabId`.

Relay links (`RelayConnection`, whose source file is not part of the surveyed
tree) are modelled from the spec: each link has an identity, a one-shot close
notification (`onclose`, reassigned by the broker at each lifecycle stage) and
an idempotent `close`; the close notification is modelled as running at close
time.  Timers (`setTimeout` / `clearTimeout`) are modelled as a set of armed
timers with fresh handles; the host scheduler may fire any armed timer.
Awaited host calls (badge updates, tab focus, `chrome.tabs.sendMessage`) are
recorded as an effect trace.
-/

namespace TabShare

/-! ## JavaScript `Map` semantics on insertion-ordered association lists -/

/-- The value stored under a key: the first matching entry, as `Map.get`. -/
def jsGet {α : Type} : List (Nat × α) → Nat → Option α
  | [], _ => none
  | (k', v) :: rest, k => if k' = k then some v else jsGet rest k

/-- The map after `Map.set`: the first matching entry is replaced in place
(keeping its position), otherwise the new entry is appended at the end. -/
def jsSet {α : Type} : List (Nat × α) → Nat → α → List (Nat × α)
  | [], k, v => [(k, v)]
  | (k', v') :: rest, k, v =>
      if k' = k then (k, v) :: rest else (k', v') :: jsSet rest k v

/-- The map after `Map.delete`: entries with the key are removed, the order of
the remaining entries is unchanged. -/
def jsDelete {α : Type} : List (Nat × α) → Nat → List (Nat × α)
  | [], _ => []
  | (k', v') :: rest, k =>
      if k' = k then jsDelete rest k else (k', v') :: jsDelete rest k

/-- The key list of a map, in insertion order, as `Array.from(m.keys())`. -/
def keysOf {α : Type} (m : List (Nat × α)) : List Nat := m.map Prod.fst

/-! ## Data model -/

/-- An entry of `_pendingTabSelection`: `{ connection, timerId? }`. -/
structure PendingEntry where
  connection : Nat
  timerId : Option Nat
deriving Repr, DecidableEq

/-- The broker callback currently installed as a relay link's one-shot
`onclose` notification: the pending-stage callback installed by
`_connectToRelay`, or the active-stage callback installed by `_connectTab`. -/
inductive CloseHandler
  | pendingFor (selectorTabId : Nat)
  | activeFor (tabId : Nat)
deriving Repr, DecidableEq

/-- An armed `setTimeout` timer created by `_onTabActivated`.  The callback
closure captures the selector tab id and the pending entry's connection. -/
structure Timer where
  handle : Nat
  delayMs : Nat
  capturedTabId : Nat
  capturedConnection : Nat
deriving Repr, DecidableEq

/-- An awaited host call or relay-link operation, recorded for frame-effect
claims.  `badge` stands for the `_updateBadge` call (text only; title and
color ride along with the text in the source). -/
inductive Effect
  | closeLink (linkId : Nat) (reason : String)
  | badge (tabId : Nat) (text : String)
  | sendMessage (tabId : Nat) (msgType : String)
  | focusTab (tabId : Nat)
  | focusWindow (windowId : Nat)
deriving Repr, DecidableEq

/-- The broker state: the two maps and the legacy scalar of the source, plus
the modelled link and timer bookkeeping (which link ids have been closed,
each created link's current `onclose` callback, each bound link's tab, the
armed timers, and fresh-id counters for links and timer handles). -/
structure BrokerState where
  activeConnections : List (Nat × Nat)
  lastConnectedTabId : Option Nat
  pendingTabSelection : List (Nat × PendingEntry)
  closedLinks : List Nat
  handlers : List (Nat × CloseHandler)
  boundTabs : List (Nat × Nat)
  timers : List Timer
  nextLink : Nat
  nextTimer : Nat
deriving Repr, DecidableEq

/-- The state of a freshly constructed `TabShareExtension`. -/
def initState : BrokerState :=
  { activeConnections := []
    lastConnectedTabId := none
    pendingTabSelection := []
    closedLinks := []
    handlers := []
    boundTabs := []
    timers := []
    nextLink := 0
    nextTimer := 0 }

/-- The badge text used by `_addConnectedTab` for a connected tab. -/
def connectedBadgeText : String := "connected"

/-! ## Broker operations (translated from `src/unnamed/part_000`) -/

/-- The `_removeConnectedTab` helper: clears the badge and, when the removed
tab is `_lastConnectedTabId`, recomputes it as the last key of
`_activeConnections` (or `null` when the map is empty). -/
def removeConnectedTab (s : BrokerState) (tabId : Nat) : BrokerState × List Effect :=
  if s.lastConnectedTabId = some tabId then
    ({ s with lastConnectedTabId := (keysOf s.activeConnections).getLast? },
     [Effect.badge tabId ""])
  else
    (s, [Effect.badge tabId ""])

/-- The currently installed `onclose` callback of a link, run when its close
notification fires: the pending-stage callback (`_connectToRelay`, line 107)
deletes the pending entry for the originating selector tab; the active-stage
callback (`_connectTab`, line 143) deletes the active entry for the bound tab
and runs `_removeConnectedTab`. -/
def runOnClose (s : BrokerState) (linkId : Nat) : BrokerState × List Effect :=
  match jsGet s.handlers linkId with
  | none => (s, [])
  | some (CloseHandler.pendingFor selectorTabId) =>
      ({ s with pendingTabSelection := jsDelete s.pendingTabSelection selectorTabId }, [])
  | some (CloseHandler.activeFor tabId) =>
      removeConnectedTab
        { s with activeConnections := jsDelete s.activeConnections tabId } tabId

/-- Modelled from the spec: `RelayConnection.close` is idempotent and the
one-shot close notification fires exactly once regardless of which path
triggered it; it is modelled as running the currently installed broker
callback at close time. -/
def closeLink (s : BrokerState) (linkId : Nat) (reason : String) :
    BrokerState × List Effect :=
  if linkId ∈ s.closedLinks then (s, [])
  else
    let s1 := { s with closedLinks := linkId :: s.closedLinks }
    let p := runOnClose s1 linkId
    (p.1, Effect.closeLink linkId reason :: p.2)

/-- The `_connectToRelay` handler.  On a successful WebSocket open (`openOk`)
a fresh `RelayConnection` is created, its `onclose` set to the pending-stage
callback, and the entry `{ connection }` stored under the selector tab id,
overwriting any previous pending entry for that tab.  On open failure or
timeout nothing is mutated and an error is thrown. -/
def connectToRelay (s : BrokerState) (selectorTabId : Nat) (openOk : Bool) :
    BrokerState × Except String Unit :=
  if openOk then
    let linkId := s.nextLink
    ({ s with
        nextLink := linkId + 1
        handlers := jsSet s.handlers linkId (CloseHandler.pendingFor selectorTabId)
        pendingTabSelection :=
          jsSet s.pendingTabSelection selectorTabId ⟨linkId, none⟩ },
     Except.ok ())
  else
    (s, Except.error "Failed to connect to MCP relay: Connection timeout")

/-- The eviction prologue of `_connectTab` (lines 126-135): close and evict
any existing active connection for the target tab, then clear its badge. -/
def connectTabEvict (s : BrokerState) (tabId : Nat) : BrokerState × List Effect :=
  match jsGet s.activeConnections tabId with
  | some existing =>
      let pa := closeLink s existing "New connection requested for this tab"
      ({ pa.1 with activeConnections := jsDelete pa.1.activeConnections tabId },
       pa.2 ++ [Effect.badge tabId ""])
  | none => (s, [])

/-- The promotion part of `_connectTab` (lines 137-157): look up the pending
entry for the selector tab, throwing `No active MCP relay connection` when
absent (the catch block then runs `_removeConnectedTab` on the target tab);
otherwise delete the pending entry (its timer is not touched), bind the link
to the target tab, install the active-stage `onclose`, store it in
`_activeConnections`, set `_lastConnectedTabId`, then await the badge and
tab/window focus calls (`hostOk` tells whether they succeed; on failure the
catch block runs `_removeConnectedTab` and rethrows). -/
def connectTabBind (s1 : BrokerState) (selectorTabId tabId windowId : Nat)
    (hostOk : Bool) : BrokerState × List Effect × Except String Nat :=
  match jsGet s1.pendingTabSelection selectorTabId with
  | none =>
      let p2 := removeConnectedTab s1 tabId
      (p2.1, p2.2, Except.error "No active MCP relay connection")
  | some entry =>
      let linkId := entry.connection
      let s5 :=
        { s1 with
            pendingTabSelection := jsDelete s1.pendingTabSelection selectorTabId
            boundTabs := jsSet s1.boundTabs linkId tabId
            handlers := jsSet s1.handlers linkId (CloseHandler.activeFor tabId)
            activeConnections := jsSet s1.activeConnections tabId linkId
            lastConnectedTabId := some tabId }
      if hostOk then
        (s5,
         [Effect.badge tabId connectedBadgeText,
          Effect.focusTab tabId, Effect.focusWindow windowId],
         Except.ok tabId)
      else
        let p2 := removeConnectedTab s5 tabId
        (p2.1, p2.2, Except.error "Host tab update failed")

/-- The `_connectTab` handler: the eviction prologue followed by the
promotion, with the effect traces concatenated in source order. -/
def connectTab (s : BrokerState) (selectorTabId tabId windowId : Nat)
    (hostOk : Bool) : BrokerState × List Effect × Except String Nat :=
  let p1 := connectTabEvict s tabId
  let p2 := connectTabBind p1.1 selectorTabId tabId windowId hostOk
  (p2.1, p1.2 ++ p2.2.1, p2.2.2)

/-- The `_onTabRemoved` handler: a pending entry for the closed tab is deleted
and its link closed (the timer is not touched); otherwise an active entry's
link is closed, the entry deleted, and `_removeConnectedTab` run. -/
def onTabRemoved (s : BrokerState) (tabId : Nat) : BrokerState × List Effect :=
  match jsGet s.pendingTabSelection tabId with
  | some entry =>
      closeLink
        { s with pendingTabSelection := jsDelete s.pendingTabSelection tabId }
        entry.connection "Browser tab closed"
  | none =>
      match jsGet s.activeConnections tabId with
      | some link =>
          let p1 := closeLink s link "Browser tab closed"
          let p2 := removeConnectedTab
            { p1.1 with activeConnections := jsDelete p1.1.activeConnections tabId }
            tabId
          (p2.1, p1.2 ++ p2.2)
      | none => (s, [])

/-- The loop body of `_onTabActivated`, iterating over a snapshot of the
pending entries (the loop only rewrites the timer field of visited entries,
so the live-map iteration of the source visits exactly these entries).  For
the focused tab's own entry an armed timer is cleared; the first other entry
without a timer gets a fresh 5000 ms timer armed and the loop returns early
(the `return` inside the `for` loop of the source). -/
def onTabActivatedLoop (s : BrokerState) (focusedTabId : Nat) :
    List (Nat × PendingEntry) → BrokerState
  | [] => s
  | (tabId, pending) :: rest =>
      if tabId = focusedTabId then
        match pending.timerId with
        | some h =>
            onTabActivatedLoop
              { s with
                  pendingTabSelection :=
                    jsSet s.pendingTabSelection tabId ⟨pending.connection, none⟩
                  timers := s.timers.filter (fun t => t.handle ≠ h) }
              focusedTabId rest
        | none => onTabActivatedLoop s focusedTabId rest
      else
        match pending.timerId with
        | some _ => onTabActivatedLoop s focusedTabId rest
        | none =>
            { s with
                pendingTabSelection :=
                  jsSet s.pendingTabSelection tabId
                    ⟨pending.connection, some s.nextTimer⟩
                timers :=
                  ⟨s.nextTimer, 5000, tabId, pending.connection⟩ :: s.timers
                nextTimer := s.nextTimer + 1 }

/-- The `_onTabActivated` handler. -/
def onTabActivated (s : BrokerState) (focusedTabId : Nat) : BrokerState :=
  onTabActivatedLoop s focusedTabId s.pendingTabSelection

/-- The `setTimeout` callback armed by `_onTabActivated`: it deletes whatever
pending entry currently sits under the captured tab id; when one existed it
closes the captured connection and sends `{ type: 'connectionTimeout' }` to
the captured tab. -/
def fireTimer (s : BrokerState) (t : Timer) : BrokerState × List Effect :=
  let s0 := { s with timers := s.timers.filter (fun u => u.handle ≠ t.handle) }
  let existed := (jsGet s0.pendingTabSelection t.capturedTabId).isSome
  let s1 :=
    { s0 with
        pendingTabSelection := jsDelete s0.pendingTabSelection t.capturedTabId }
  if existed then
    let p := closeLink s1 t.capturedConnection "Tab has been inactive for 5 seconds"
    (p.1, p.2 ++ [Effect.sendMessage t.capturedTabId "connectionTimeout"])
  else
    (s1, [])

/-- The `_onTabUpdated` handler: refreshes the badge of a connected tab. -/
def onTabUpdated (s : BrokerState) (tabId : Nat) : BrokerState × List Effect :=
  if (jsGet s.activeConnections tabId).isSome then
    (s, [Effect.badge tabId connectedBadgeText])
  else
    (s, [])

/-- The `_disconnect` handler for a specific tab: closes and evicts only that
active connection, a no-op when absent. -/
def disconnectOne (s : BrokerState) (tabId : Nat) : BrokerState × List Effect :=
  match jsGet s.activeConnections tabId with
  | some link =>
      let p1 := closeLink s link "User disconnected"
      let p2 := removeConnectedTab
        { p1.1 with activeConnections := jsDelete p1.1.activeConnections tabId }
        tabId
      (p2.1, p1.2 ++ p2.2)
  | none => (s, [])

/-- The loop of `_disconnect` without a tab id: every active connection of the
snapshot is closed and `_removeConnectedTab` run (the map itself is only
cleared after the loop). -/
def disconnectAllLoop : BrokerState → List (Nat × Nat) → BrokerState × List Effect
  | s, [] => (s, [])
  | s, (connectedTabId, link) :: rest =>
      let p1 := closeLink s link "User disconnected"
      let p2 := removeConnectedTab p1.1 connectedTabId
      let p3 := disconnectAllLoop p2.1 rest
      (p3.1, p1.2 ++ p2.2 ++ p3.2)

/-- The `_disconnect` handler: with a tab id, `disconnectOne`; without, the
loop over all active connections followed by `clear()` and resetting
`_lastConnectedTabId`. -/
def disconnect (s : BrokerState) (tabId : Option Nat) : BrokerState × List Effect :=
  match tabId with
  | some t => disconnectOne s t
  | none =>
      let p := disconnectAllLoop s s.activeConnections
      ({ p.1 with activeConnections := [], lastConnectedTabId := none }, p.2)

/-- The `_getTabs` filter: host tabs whose URL is empty or starts with an
internal scheme are excluded. -/
def getTabsFilter (hostTabs : List (Nat × String)) : List (Nat × String) :=
  hostTabs.filter (fun tab =>
    tab.2 != "" &&
      !(["chrome:", "edge:", "devtools:"].any (fun scheme => tab.2.startsWith scheme)))

/-! ## RPC dispatch -/

/-- The request union of the background script's message channel. -/
inductive PageMessage
  | connectToMCPRelay (mcpRelayUrl : String)
  | getTabs
  | connectToTab (tabId : Option Nat) (windowId : Option Nat) (mcpRelayUrl : String)
  | getConnectionStatus
  | getAllConnections
  | disconnect (tabId : Option Nat)
deriving Repr, DecidableEq

/-- The host-provided context of one `_onMessage` dispatch: the sender tab and
window, whether the WebSocket open of `_connectToRelay` succeeds within its
5000 ms budget, whether the awaited tab/window host calls of `_connectTab`
succeed, and the host's tab list for `getTabs`. -/
structure Env where
  senderTabId : Nat
  senderWindowId : Nat
  openOk : Bool
  hostOk : Bool
  hostTabs : List (Nat × String)
deriving Repr, DecidableEq

/-- A response sent through `sendResponse`. -/
inductive Response
  | ok
  | okTab (tabId : Nat)
  | err (error : String)
  | tabs (tabs : List (Nat × String)) (currentTabId : Nat)
  | status (connectedTabId : Option Nat) (connectedTabIds : List Nat)
  | connections (tabIds : List Nat)
deriving Repr, DecidableEq

/-- The JavaScript `||` fallback used for `message.tabId || sender.tab?.id`
(`0` is falsy). -/
def jsOr (v : Option Nat) (d : Nat) : Nat :=
  match v with
  | some t => if t = 0 then d else t
  | none => d

/-- The `_onMessage` dispatcher. -/
def onMessage (s : BrokerState) (m : PageMessage) (env : Env) :
    BrokerState × List Effect × Response :=
  match m with
  | PageMessage.connectToMCPRelay _url =>
      match connectToRelay s env.senderTabId env.openOk with
      | (s1, Except.ok _) => (s1, [], Response.ok)
      | (s1, Except.error e) => (s1, [], Response.err e)
  | PageMessage.getTabs =>
      (s, [], Response.tabs (getTabsFilter env.hostTabs) env.senderTabId)
  | PageMessage.connectToTab mTabId mWindowId _url =>
      let tabId := jsOr mTabId env.senderTabId
      let windowId := jsOr mWindowId env.senderWindowId
      match connectTab s env.senderTabId tabId windowId env.hostOk with
      | (s1, effs, Except.ok t) => (s1, effs, Response.okTab t)
      | (s1, effs, Except.error e) => (s1, effs, Response.err e)
  | PageMessage.getConnectionStatus =>
      (s, [], Response.status s.lastConnectedTabId (keysOf s.activeConnections))
  | PageMessage.getAllConnections =>
      (s, [], Response.connections (keysOf s.activeConnections))
  | PageMessage.disconnect tabId =>
      let p := disconnect s tabId
      (p.1, p.2, Response.ok)

/-! ## Event system and reachable states -/

/-- A discrete task drawn from the single event queue: an RPC dispatch, a host
tab-lifecycle notification, an armed timer firing, or a relay link's close
notification arriving from the remote side. -/
inductive Event
  | message (m : PageMessage) (env : Env)
  | tabRemoved (tabId : Nat)
  | tabActivated (focusedTabId : Nat)
  | tabUpdated (tabId : Nat)
  | timerFired (handle : Nat)
  | linkClosed (linkId : Nat)
deriving Repr, DecidableEq

/-- One event handler, run to completion. -/
def stepEv (s : BrokerState) : Event → BrokerState × List Effect
  | Event.message m env =>
      let p := onMessage s m env
      (p.1, p.2.1)
  | Event.tabRemoved t => onTabRemoved s t
  | Event.tabActivated f => (onTabActivated s f, [])
  | Event.tabUpdated t => onTabUpdated s t
  | Event.timerFired h =>
      match s.timers.find? (fun t => t.handle == h) with
      | some t => fireTimer s t
      | none => (s, [])
  | Event.linkClosed linkId =>
      match jsGet s.handlers linkId with
      | some _ => closeLink s linkId "Relay connection closed"
      | none => (s, [])

/-- A broker state reachable from the initial state by a sequence of fully
processed events. -/
inductive Reachable : BrokerState → Prop
  | init : Reachable initState
  | step (s : BrokerState) (e : Event) : Reachable s → Reachable (stepEv s e).1

/-- A link referenced by the pending-selections map. -/
def LinkPending (s : BrokerState) (linkId : Nat) : Prop :=
  ∃ sel e, jsGet s.pendingTabSelection sel = some e ∧ e.connection = linkId

/-- A link referenced by the active-connections map. -/
def LinkActive (s : BrokerState) (linkId : Nat) : Prop :=
  ∃ t, jsGet s.activeConnections t = some linkId

/-! ## Map lemmas -/

theorem jsGet_jsSet {α : Type} (m : List (Nat × α)) (k k' : Nat) (v : α) :
    jsGet (jsSet m k v) k' = if k' = k then some v else jsGet m k' := by
  induction m with
  | nil =>
      rcases eq_or_ne k' k with h | h
      · subst h
        simp [jsSet, jsGet]
      · simp [jsSet, jsGet, h, Ne.symm h]
  | cons p rest ih =>
      obtain ⟨k0, v0⟩ := p
      rcases eq_or_ne k0 k with h0 | h0
      · subst h0
        rcases eq_or_ne k' k0 with h | h
        · subst h
          simp [jsSet, jsGet]
        · simp [jsSet, jsGet, h, Ne.symm h]
      · rcases eq_or_ne k' k0 with h | h
        · subst h
          simp [jsSet, jsGet, h0, Ne.symm h0]
        · simp [jsSet, jsGet, h0, h, Ne.symm h, ih]

theorem jsGet_jsDelete {α : Type} (m : List (Nat × α)) (k k' : Nat) :
    jsGet (jsDelete m k) k' = if k' = k then none else jsGet m k' := by
  induction m with
  | nil => simp [jsDelete, jsGet]
  | cons p rest ih =>
      obtain ⟨k0, v0⟩ := p
      rcases eq_or_ne k0 k with h0 | h0
      · subst h0
        rcases eq_or_ne k' k0 with h | h
        · subst h
          simp [jsDelete, jsGet, ih]
        · simp [jsDelete, jsGet, h, Ne.symm h, ih]
      · rcases eq_or_ne k' k0 with h | h
        · subst h
          simp [jsDelete, jsGet, h0, Ne.symm h0, ih]
        · simp [jsDelete, jsGet, h0, h, Ne.symm h, ih]

theorem mem_jsSet_elim {α : Type} {m : List (Nat × α)} {k : Nat} {v : α}
    {p : Nat × α} (h : p ∈ jsSet m k v) : p = (k, v) ∨ p ∈ m := by
  induction m with
  | nil =>
      simp [jsSet] at h
      exact Or.inl h
  | cons q rest ih =>
      obtain ⟨k0, v0⟩ := q
      by_cases h0 : k0 = k
      · simp [jsSet, h0] at h
        rcases h with h | h
        · exact Or.inl (by simp [h])
        · exact Or.inr (List.mem_cons_of_mem _ h)
      · simp [jsSet, h0] at h
        rcases h with h | h
        · exact Or.inr (by simp [h])
        · rcases ih h with h1 | h1
          · exact Or.inl h1
          · exact Or.inr (List.mem_cons_of_mem _ h1)

theorem mem_jsDelete_elim {α : Type} {m : List (Nat × α)} {k : Nat}
    {p : Nat × α} (h : p ∈ jsDelete m k) : p ∈ m := by
  induction m with
  | nil => simp [jsDelete] at h
  | cons q rest ih =>
      obtain ⟨k0, v0⟩ := q
      by_cases h0 : k0 = k
      · simp [jsDelete, h0] at h
        exact List.mem_cons_of_mem _ (ih h)
      · simp [jsDelete, h0] at h
        rcases h with h | h
        · simp [h]
        · exact List.mem_cons_of_mem _ (ih h)

theorem mem_keysOf_jsSet {α : Type} {m : List (Nat × α)} {k a : Nat} {v : α}
    (h : a ∈ keysOf (jsSet m k v)) : a = k ∨ a ∈ keysOf m := by
  simp only [keysOf, List.mem_map] at h
  obtain ⟨p, hp, hpa⟩ := h
  rcases mem_jsSet_elim hp with h1 | h1
  · subst h1
    exact Or.inl hpa.symm
  · exact Or.inr (by simp only [keysOf, List.mem_map]; exact ⟨p, h1, hpa⟩)

theorem nodup_keysOf_jsSet {α : Type} {m : List (Nat × α)} (k : Nat) (v : α)
    (h : (keysOf m).Nodup) : (keysOf (jsSet m k v)).Nodup := by
  induction m with
  | nil => simp [jsSet, keysOf]
  | cons p rest ih =>
      obtain ⟨k0, v0⟩ := p
      simp only [keysOf, List.map_cons, List.nodup_cons] at h
      by_cases h0 : k0 = k
      · subst h0
        simpa [jsSet, keysOf] using h
      · simp only [jsSet, h0, if_false, keysOf, List.map_cons, List.nodup_cons]
        refine ⟨fun hc => ?_, ih h.2⟩
        rcases mem_keysOf_jsSet hc with h1 | h1
        · exact h0 h1
        · exact h.1 h1

theorem nodup_keysOf_jsDelete {α : Type} {m : List (Nat × α)} (k : Nat)
    (h : (keysOf m).Nodup) : (keysOf (jsDelete m k)).Nodup := by
  induction m with
  | nil => simp [jsDelete, keysOf]
  | cons p rest ih =>
      obtain ⟨k0, v0⟩ := p
      simp only [keysOf, List.map_cons, List.nodup_cons] at h
      by_cases h0 : k0 = k
      · simp only [jsDelete, h0, if_true]
        exact ih h.2
      · simp only [jsDelete, h0, if_false, keysOf, List.map_cons, List.nodup_cons]
        refine ⟨fun hc => ?_, ih h.2⟩
        have : k0 ∈ keysOf rest := by
          simp only [keysOf, List.mem_map] at hc ⊢
          obtain ⟨p, hp, hpa⟩ := hc
          exact ⟨p, mem_jsDelete_elim hp, hpa⟩
        exact h.1 this

theorem jsGet_of_mem_nodup {α : Type} {m : List (Nat × α)} {k : Nat} {v : α}
    (hn : (keysOf m).Nodup) (h : (k, v) ∈ m) : jsGet m k = some v := by
  induction m with
  | nil => simp at h
  | cons p rest ih =>
      obtain ⟨k0, v0⟩ := p
      simp only [keysOf, List.map_cons, List.nodup_cons] at hn
      rcases List.mem_cons.mp h with h1 | h1
      · cases h1
        simp [jsGet]
      · have hne : k0 ≠ k := by
          intro hc
          subst hc
          exact hn.1 (by simp only [keysOf, List.mem_map]; exact ⟨(k0, v), h1, rfl⟩)
        simp [jsGet, hne, ih hn.2 h1]

theorem jsDelete_of_get_none {α : Type} {m : List (Nat × α)} {k : Nat}
    (h : jsGet m k = none) : jsDelete m k = m := by
  induction m with
  | nil => simp [jsDelete]
  | cons p rest ih =>
      obtain ⟨k0, v0⟩ := p
      by_cases h0 : k0 = k
      · simp [jsGet, h0] at h
      · simp only [jsGet, h0, if_false] at h
        simp [jsDelete, h0, ih h]

theorem jsGet_isSome_of_mem_keysOf {α : Type} {m : List (Nat × α)} {k : Nat}
    (h : k ∈ keysOf m) : (jsGet m k).isSome := by
  induction m with
  | nil => simp [keysOf] at h
  | cons p rest ih =>
      obtain ⟨k0, v0⟩ := p
      by_cases h0 : k0 = k
      · simp [jsGet, h0]
      · simp only [keysOf, List.map_cons, List.mem_cons] at h
        rcases h with h | h
        · exact absurd h.symm h0
        · simp only [jsGet, h0, if_false]
          exact ih h

theorem not_mem_keysOf_jsDelete {α : Type} (m : List (Nat × α)) (k : Nat) :
    k ∉ keysOf (jsDelete m k) := by
  intro h
  induction m with
  | nil => simp [jsDelete, keysOf] at h
  | cons p rest ih =>
      obtain ⟨k0, v0⟩ := p
      by_cases h0 : k0 = k
      · simp only [jsDelete, h0, if_true] at h
        exact ih h
      · simp only [jsDelete, h0, if_false, keysOf, List.map_cons, List.mem_cons] at h
        rcases h with h | h
        · exact h0 h.symm
        · exact ih h

/-! ## The link-ownership invariant (claim C1)

Every reachable broker state satisfies: the handler installed on a link
records which single map slot owns it, links in either map have not been
closed, and all recorded link ids are below the fresh-link counter. -/

structure Inv (s : BrokerState) : Prop where
  pendingNodup : (keysOf s.pendingTabSelection).Nodup
  activeInv : ∀ t L, jsGet s.activeConnections t = some L →
      jsGet s.handlers L = some (CloseHandler.activeFor t) ∧
      L ∉ s.closedLinks ∧ L < s.nextLink
  pendingInv : ∀ sel e, jsGet s.pendingTabSelection sel = some e →
      jsGet s.handlers e.connection = some (CloseHandler.pendingFor sel) ∧
      e.connection ∉ s.closedLinks ∧ e.connection < s.nextLink
  closedInv : ∀ L ∈ s.closedLinks, L < s.nextLink
  handlerInv : ∀ L c, jsGet s.handlers L = some c → L < s.nextLink
  timerInv : ∀ t ∈ s.timers, t.capturedConnection < s.nextLink
  activeMem : ∀ p ∈ s.activeConnections, p.2 < s.nextLink

theorem nextLink_removeConnectedTab (s : BrokerState) (tabId : Nat) :
    (removeConnectedTab s tabId).1.nextLink = s.nextLink := by
  unfold removeConnectedTab
  split <;> rfl

theorem nextLink_runOnClose (s : BrokerState) (L : Nat) :
    (runOnClose s L).1.nextLink = s.nextLink := by
  unfold runOnClose
  split
  · rfl
  · rfl
  · exact nextLink_removeConnectedTab _ _

theorem nextLink_closeLink (s : BrokerState) (L : Nat) (r : String) :
    (closeLink s L r).1.nextLink = s.nextLink := by
  unfold closeLink
  split
  · rfl
  · exact nextLink_runOnClose _ _

theorem inv_removeConnectedTab (s : BrokerState) (tabId : Nat) (h : Inv s) :
    Inv (removeConnectedTab s tabId).1 := by
  unfold removeConnectedTab
  split
  · exact ⟨h.pendingNodup, h.activeInv, h.pendingInv, h.closedInv, h.handlerInv,
      h.timerInv, h.activeMem⟩
  · exact h

theorem inv_closeLink (s : BrokerState) (L : Nat) (r : String)
    (h : Inv s) (hL : L < s.nextLink) : Inv (closeLink s L r).1 := by
  unfold closeLink
  split
  · exact h
  · show Inv (runOnClose { s with closedLinks := L :: s.closedLinks } L).1
    unfold runOnClose
    split
    case _ hH =>
      refine ⟨h.pendingNodup, ?_, ?_, ?_, h.handlerInv, h.timerInv, h.activeMem⟩
      · intro t L' hget
        obtain ⟨h1, h2, h3⟩ := h.activeInv t L' hget
        refine ⟨h1, ?_, h3⟩
        intro hmem
        rcases List.mem_cons.mp hmem with hLL | hmem
        · subst hLL
          rw [h1] at hH
          cases hH
        · exact h2 hmem
      · intro sel e hget
        obtain ⟨h1, h2, h3⟩ := h.pendingInv sel e hget
        refine ⟨h1, ?_, h3⟩
        intro hmem
        rcases List.mem_cons.mp hmem with hLL | hmem
        · rw [hLL] at h1
          rw [h1] at hH
          cases hH
        · exact h2 hmem
      · intro L' hmem
        rcases List.mem_cons.mp hmem with hLL | hmem
        · subst hLL
          exact hL
        · exact h.closedInv L' hmem
    case _ sel hH =>
      refine ⟨nodup_keysOf_jsDelete _ h.pendingNodup, ?_, ?_, ?_, h.handlerInv,
        h.timerInv, h.activeMem⟩
      · intro t L' hget
        obtain ⟨h1, h2, h3⟩ := h.activeInv t L' hget
        refine ⟨h1, ?_, h3⟩
        intro hmem
        rcases List.mem_cons.mp hmem with hLL | hmem
        · subst hLL
          rw [h1] at hH
          cases hH
        · exact h2 hmem
      · intro sel' e hget
        rw [jsGet_jsDelete] at hget
        by_cases hss : sel' = sel
        · rw [if_pos hss] at hget
          cases hget
        · rw [if_neg hss] at hget
          obtain ⟨h1, h2, h3⟩ := h.pendingInv sel' e hget
          refine ⟨h1, ?_, h3⟩
          intro hmem
          rcases List.mem_cons.mp hmem with hLL | hmem
          · rw [hLL] at h1
            rw [h1] at hH
            cases hH
            exact hss rfl
          · exact h2 hmem
      · intro L' hmem
        rcases List.mem_cons.mp hmem with hLL | hmem
        · subst hLL
          exact hL
        · exact h.closedInv L' hmem
    case _ t0 hH =>
      apply inv_removeConnectedTab
      refine ⟨h.pendingNodup, ?_, ?_, ?_, h.handlerInv, h.timerInv, ?_⟩
      · intro t L' hget
        rw [jsGet_jsDelete] at hget
        by_cases htt : t = t0
        · rw [if_pos htt] at hget
          cases hget
        · rw [if_neg htt] at hget
          obtain ⟨h1, h2, h3⟩ := h.activeInv t L' hget
          refine ⟨h1, ?_, h3⟩
          intro hmem
          rcases List.mem_cons.mp hmem with hLL | hmem
          · subst hLL
            rw [h1] at hH
            cases hH
            exact htt rfl
          · exact h2 hmem
      · intro sel e hget
        obtain ⟨h1, h2, h3⟩ := h.pendingInv sel e hget
        refine ⟨h1, ?_, h3⟩
        intro hmem
        rcases List.mem_cons.mp hmem with hLL | hmem
        · rw [hLL] at h1
          rw [h1] at hH
          cases hH
        · exact h2 hmem
      · intro L' hmem
        rcases List.mem_cons.mp hmem with hLL | hmem
        · subst hLL
          exact hL
        · exact h.closedInv L' hmem
      · intro p hmem
        exact h.activeMem p (mem_jsDelete_elim hmem)

theorem inv_delete_active (s : BrokerState) (tabId : Nat) (h : Inv s) :
    Inv { s with activeConnections := jsDelete s.activeConnections tabId } := by
  refine ⟨h.pendingNodup, ?_, h.pendingInv, h.closedInv, h.handlerInv, h.timerInv, ?_⟩
  · intro t L hget
    rw [jsGet_jsDelete] at hget
    by_cases htt : t = tabId
    · rw [if_pos htt] at hget
      cases hget
    · rw [if_neg htt] at hget
      exact h.activeInv t L hget
  · intro p hmem
    exact h.activeMem p (mem_jsDelete_elim hmem)

theorem inv_delete_pending (s : BrokerState) (sel : Nat) (h : Inv s) :
    Inv { s with pendingTabSelection := jsDelete s.pendingTabSelection sel } := by
  refine ⟨nodup_keysOf_jsDelete _ h.pendingNodup, h.activeInv, ?_, h.closedInv,
    h.handlerInv, h.timerInv, h.activeMem⟩
  intro sel' e hget
  rw [jsGet_jsDelete] at hget
  by_cases hss : sel' = sel
  · rw [if_pos hss] at hget
    cases hget
  · rw [if_neg hss] at hget
    exact h.pendingInv sel' e hget

theorem inv_connectToRelay (s : BrokerState) (sel : Nat) (openOk : Bool)
    (h : Inv s) : Inv (connectToRelay s sel openOk).1 := by
  unfold connectToRelay
  split
  · refine ⟨nodup_keysOf_jsSet _ _ h.pendingNodup, ?_, ?_, ?_, ?_, ?_, ?_⟩
    · intro t L hget
      obtain ⟨h1, h2, h3⟩ := h.activeInv t L hget
      rw [jsGet_jsSet, if_neg (Nat.ne_of_lt h3)]
      exact ⟨h1, h2, Nat.lt_succ_of_lt h3⟩
    · intro sel' e hget
      rw [jsGet_jsSet] at hget
      by_cases hss : sel' = sel
      · rw [if_pos hss] at hget
        cases hget
        subst hss
        refine ⟨?_, ?_, Nat.lt_succ_self _⟩
        · rw [jsGet_jsSet, if_pos rfl]
        · intro hmem
          exact Nat.lt_irrefl _ (h.closedInv _ hmem)
      · rw [if_neg hss] at hget
        obtain ⟨h1, h2, h3⟩ := h.pendingInv sel' e hget
        rw [jsGet_jsSet, if_neg (Nat.ne_of_lt h3)]
        exact ⟨h1, h2, Nat.lt_succ_of_lt h3⟩
    · intro L hmem
      exact Nat.lt_succ_of_lt (h.closedInv L hmem)
    · intro L c hget
      rw [jsGet_jsSet] at hget
      by_cases hLn : L = s.nextLink
      · subst hLn
        exact Nat.lt_succ_self _
      · rw [if_neg hLn] at hget
        exact Nat.lt_succ_of_lt (h.handlerInv L c hget)
    · intro t hmem
      exact Nat.lt_succ_of_lt (h.timerInv t hmem)
    · intro p hmem
      exact Nat.lt_succ_of_lt (h.activeMem p hmem)
  · exact h

theorem inv_connectTabEvict (s : BrokerState) (tabId : Nat) (h : Inv s) :
    Inv (connectTabEvict s tabId).1 := by
  unfold connectTabEvict
  split
  case _ existing hget =>
    obtain ⟨h1, h2, h3⟩ := h.activeInv tabId existing hget
    exact inv_delete_active _ tabId
      (inv_closeLink s existing "New connection requested for this tab" h h3)
  · exact h

theorem inv_connectTabBind (s1 : BrokerState) (selectorTabId tabId windowId : Nat)
    (hostOk : Bool) (h1 : Inv s1) :
    Inv (connectTabBind s1 selectorTabId tabId windowId hostOk).1 := by
  unfold connectTabBind
  split
  · exact inv_removeConnectedTab _ _ h1
  case _ entry hget =>
    obtain ⟨hp1, hp2, hp3⟩ := h1.pendingInv selectorTabId entry hget
    have h5 : Inv
        { s1 with
            pendingTabSelection := jsDelete s1.pendingTabSelection selectorTabId
            boundTabs := jsSet s1.boundTabs entry.connection tabId
            handlers := jsSet s1.handlers entry.connection (CloseHandler.activeFor tabId)
            activeConnections := jsSet s1.activeConnections tabId entry.connection
            lastConnectedTabId := some tabId } := by
      refine ⟨nodup_keysOf_jsDelete _ h1.pendingNodup, ?_, ?_, h1.closedInv, ?_,
        h1.timerInv, ?_⟩
      · intro t L hget2
        rw [jsGet_jsSet] at hget2
        by_cases htt : t = tabId
        · rw [if_pos htt] at hget2
          cases hget2
          subst htt
          exact ⟨by rw [jsGet_jsSet, if_pos rfl], hp2, hp3⟩
        · rw [if_neg htt] at hget2
          obtain ⟨h1a, h1b, h1c⟩ := h1.activeInv t L hget2
          have hne : L ≠ entry.connection := by
            intro hc
            rw [hc, hp1] at h1a
            cases h1a
          rw [jsGet_jsSet, if_neg hne]
          exact ⟨h1a, h1b, h1c⟩
      · intro sel' e hget2
        rw [jsGet_jsDelete] at hget2
        by_cases hss : sel' = selectorTabId
        · rw [if_pos hss] at hget2
          cases hget2
        · rw [if_neg hss] at hget2
          obtain ⟨h1a, h1b, h1c⟩ := h1.pendingInv sel' e hget2
          have hne : e.connection ≠ entry.connection := by
            intro hc
            rw [hc, hp1] at h1a
            cases h1a
            exact hss rfl
          rw [jsGet_jsSet, if_neg hne]
          exact ⟨h1a, h1b, h1c⟩
      · intro L c hget2
        rw [jsGet_jsSet] at hget2
        by_cases hLn : L = entry.connection
        · subst hLn
          exact hp3
        · rw [if_neg hLn] at hget2
          exact h1.handlerInv L c hget2
      · intro p hmem
        rcases mem_jsSet_elim hmem with hpe | hmem
        · rw [hpe]
          exact hp3
        · exact h1.activeMem p hmem
    split
    · exact h5
    · exact inv_removeConnectedTab _ _ h5

theorem inv_connectTab (s : BrokerState) (selectorTabId tabId windowId : Nat)
    (hostOk : Bool) (h : Inv s) :
    Inv (connectTab s selectorTabId tabId windowId hostOk).1 := by
  unfold connectTab
  exact inv_connectTabBind _ _ _ _ _ (inv_connectTabEvict s tabId h)

theorem inv_onTabRemoved (s : BrokerState) (tabId : Nat) (h : Inv s) :
    Inv (onTabRemoved s tabId).1 := by
  unfold onTabRemoved
  split
  case _ entry hget =>
    obtain ⟨hp1, hp2, hp3⟩ := h.pendingInv tabId entry hget
    exact inv_closeLink _ _ _ (inv_delete_pending s tabId h) hp3
  case _ hnp =>
    split
    case _ link hget =>
      obtain ⟨h1, h2, h3⟩ := h.activeInv tabId link hget
      have hc := inv_closeLink s link "Browser tab closed" h h3
      exact inv_removeConnectedTab _ _ (inv_delete_active _ tabId hc)
    · exact h

theorem inv_disconnectOne (s : BrokerState) (tabId : Nat) (h : Inv s) :
    Inv (disconnectOne s tabId).1 := by
  unfold disconnectOne
  split
  case _ link hget =>
    obtain ⟨h1, h2, h3⟩ := h.activeInv tabId link hget
    have hc := inv_closeLink s link "User disconnected" h h3
    exact inv_removeConnectedTab _ _ (inv_delete_active _ tabId hc)
  · exact h

theorem inv_disconnectAllLoop (entries : List (Nat × Nat)) :
    ∀ s : BrokerState, Inv s → (∀ p ∈ entries, p.2 < s.nextLink) →
      Inv (disconnectAllLoop s entries).1 := by
  induction entries with
  | nil =>
      intro s h _
      exact h
  | cons p rest ih =>
      intro s h hb
      obtain ⟨tid, link⟩ := p
      have hlink : link < s.nextLink := hb (tid, link) (List.mem_cons_self _ _)
      have hc := inv_closeLink s link "User disconnected" h hlink
      have hr := inv_removeConnectedTab (closeLink s link "User disconnected").1 tid hc
      apply ih _ hr
      intro q hq
      have hn1 : (removeConnectedTab (closeLink s link "User disconnected").1 tid).1.nextLink
          = s.nextLink := by
        rw [nextLink_removeConnectedTab, nextLink_closeLink]
      rw [hn1]
      exact hb q (List.mem_cons_of_mem _ hq)

theorem inv_disconnect (s : BrokerState) (tabId : Option Nat) (h : Inv s) :
    Inv (disconnect s tabId).1 := by
  unfold disconnect
  match tabId with
  | some t => exact inv_disconnectOne s t h
  | none =>
      have hl := inv_disconnectAllLoop s.activeConnections s h h.activeMem
      refine ⟨hl.pendingNodup, ?_, hl.pendingInv, hl.closedInv, hl.handlerInv,
        hl.timerInv, ?_⟩
      · intro t L hget
        cases hget
      · intro p hmem
        cases hmem

theorem inv_onTabUpdated (s : BrokerState) (tabId : Nat) (h : Inv s) :
    Inv (onTabUpdated s tabId).1 := by
  unfold onTabUpdated
  split <;> exact h

theorem inv_fireTimer (s : BrokerState) (t : Timer) (h : Inv s)
    (hb : t.capturedConnection < s.nextLink) : Inv (fireTimer s t).1 := by
  unfold fireTimer
  have h0 : Inv { s with timers := s.timers.filter (fun u => u.handle ≠ t.handle) } := by
    refine ⟨h.pendingNodup, h.activeInv, h.pendingInv, h.closedInv, h.handlerInv, ?_,
      h.activeMem⟩
    intro u hmem
    exact h.timerInv u (List.mem_of_mem_filter hmem)
  have h1 := inv_delete_pending _ t.capturedTabId h0
  dsimp only
  split
  · exact inv_closeLink _ _ _ h1 hb
  · exact h1

theorem inv_set_pending_same_connection (s : BrokerState) (tabId conn : Nat)
    (ti : Option Nat) (h : Inv s)
    (hp1 : jsGet s.handlers conn = some (CloseHandler.pendingFor tabId))
    (hp2 : conn ∉ s.closedLinks) (hp3 : conn < s.nextLink) :
    Inv { s with
            pendingTabSelection := jsSet s.pendingTabSelection tabId ⟨conn, ti⟩ } := by
  refine ⟨nodup_keysOf_jsSet _ _ h.pendingNodup, h.activeInv, ?_, h.closedInv,
    h.handlerInv, h.timerInv, h.activeMem⟩
  intro sel e hget
  rw [jsGet_jsSet] at hget
  by_cases hss : sel = tabId
  · rw [if_pos hss] at hget
    cases hget
    subst hss
    exact ⟨hp1, hp2, hp3⟩
  · rw [if_neg hss] at hget
    exact h.pendingInv sel e hget

theorem inv_set_timerfields (s : BrokerState) (ts : List Timer) (nt : Nat)
    (h : Inv s) (hb : ∀ u ∈ ts, u.capturedConnection < s.nextLink) :
    Inv { s with timers := ts, nextTimer := nt } :=
  ⟨h.pendingNodup, h.activeInv, h.pendingInv, h.closedInv, h.handlerInv, hb,
    h.activeMem⟩

theorem inv_onTabActivatedLoop (focusedTabId : Nat)
    (entries : List (Nat × PendingEntry)) :
    ∀ s : BrokerState, Inv s → (keysOf entries).Nodup →
      (∀ ke ∈ entries,
        (jsGet s.pendingTabSelection ke.1).map PendingEntry.connection
          = some ke.2.connection) →
      Inv (onTabActivatedLoop s focusedTabId entries) := by
  induction entries with
  | nil =>
      intro s h _ _
      exact h
  | cons ke rest ih =>
      intro s h hnd haux
      obtain ⟨tabId, pending⟩ := ke
      have hone := haux (tabId, pending) (List.mem_cons_self _ _)
      obtain ⟨e, hge, hec⟩ : ∃ e, jsGet s.pendingTabSelection tabId = some e ∧
          e.connection = pending.connection := by
        cases hg : jsGet s.pendingTabSelection tabId with
        | none =>
            rw [hg] at hone
            cases hone
        | some e =>
            rw [hg] at hone
            exact ⟨e, rfl, Option.some.inj hone⟩
      obtain ⟨hp1, hp2, hp3⟩ := h.pendingInv tabId e hge
      rw [hec] at hp1 hp2 hp3
      simp only [keysOf, List.map_cons, List.nodup_cons] at hnd
      have hkn : tabId ∉ keysOf rest := hnd.1
      have hrnd : (keysOf rest).Nodup := hnd.2
      have hauxr : ∀ ke' ∈ rest,
          (jsGet s.pendingTabSelection ke'.1).map PendingEntry.connection
            = some ke'.2.connection :=
        fun ke' hm => haux ke' (List.mem_cons_of_mem _ hm)
      unfold onTabActivatedLoop
      by_cases hf : tabId = focusedTabId
      · rw [if_pos hf]
        cases hti : pending.timerId with
        | some hdl =>
            simp only
            apply ih
            · have hset := inv_set_pending_same_connection s tabId pending.connection
                none h hp1 hp2 hp3
              refine ⟨hset.pendingNodup, hset.activeInv, hset.pendingInv,
                hset.closedInv, hset.handlerInv, ?_, hset.activeMem⟩
              intro u hmem
              exact h.timerInv u (List.mem_of_mem_filter hmem)
            · exact hrnd
            · intro ke' hm
              have hkey : ke'.1 ≠ tabId := by
                intro hc
                exact hkn (hc ▸ (List.mem_map.mpr ⟨ke', hm, rfl⟩))
              rw [jsGet_jsSet, if_neg hkey]
              exact hauxr ke' hm
        | none =>
            simp only
            exact ih s h hrnd hauxr
      · rw [if_neg hf]
        cases hti : pending.timerId with
        | some hdl =>
            simp only
            exact ih s h hrnd hauxr
        | none =>
            simp only
            have hset := inv_set_pending_same_connection s tabId pending.connection
              (some s.nextTimer) h hp1 hp2 hp3
            refine inv_set_timerfields _ _ _ hset ?_
            intro u hmem
            rcases List.mem_cons.mp hmem with hu | hu
            · rw [hu]
              exact hp3
            · exact h.timerInv u hu

theorem inv_onTabActivated (s : BrokerState) (focusedTabId : Nat) (h : Inv s) :
    Inv (onTabActivated s focusedTabId) := by
  unfold onTabActivated
  apply inv_onTabActivatedLoop focusedTabId s.pendingTabSelection s h h.pendingNodup
  intro ke hm
  rw [jsGet_of_mem_nodup h.pendingNodup ?_]
  · rfl
  · obtain ⟨k, v⟩ := ke
    exact hm

theorem inv_onMessage (s : BrokerState) (m : PageMessage) (env : Env) (h : Inv s) :
    Inv (onMessage s m env).1 := by
  unfold onMessage
  match m with
  | PageMessage.connectToMCPRelay _url =>
      have hc := inv_connectToRelay s env.senderTabId env.openOk h
      dsimp only
      split
      case _ s1 u heq =>
        rw [show s1 = (connectToRelay s env.senderTabId env.openOk).1 by rw [heq]]
        exact hc
      case _ s1 e heq =>
        rw [show s1 = (connectToRelay s env.senderTabId env.openOk).1 by rw [heq]]
        exact hc
  | PageMessage.getTabs => exact h
  | PageMessage.connectToTab mTabId mWindowId _url =>
      have hc := inv_connectTab s env.senderTabId (jsOr mTabId env.senderTabId)
        (jsOr mWindowId env.senderWindowId) env.hostOk h
      dsimp only
      split
      case _ s1 effs t heq =>
        rw [show s1 = (connectTab s env.senderTabId (jsOr mTabId env.senderTabId)
          (jsOr mWindowId env.senderWindowId) env.hostOk).1 by rw [heq]]
        exact hc
      case _ s1 effs e heq =>
        rw [show s1 = (connectTab s env.senderTabId (jsOr mTabId env.senderTabId)
          (jsOr mWindowId env.senderWindowId) env.hostOk).1 by rw [heq]]
        exact hc
  | PageMessage.getConnectionStatus => exact h
  | PageMessage.getAllConnections => exact h
  | PageMessage.disconnect tabId => exact inv_disconnect s tabId h

theorem inv_stepEv (s : BrokerState) (e : Event) (h : Inv s) :
    Inv (stepEv s e).1 := by
  unfold stepEv
  match e with
  | Event.message m env => exact inv_onMessage s m env h
  | Event.tabRemoved t => exact inv_onTabRemoved s t h
  | Event.tabActivated f => exact inv_onTabActivated s f h
  | Event.tabUpdated t => exact inv_onTabUpdated s t h
  | Event.timerFired hd =>
      dsimp only
      split
      case _ t heq =>
        exact inv_fireTimer s t h
          (h.timerInv t (List.mem_of_find?_eq_some heq))
      · exact h
  | Event.linkClosed linkId =>
      dsimp only
      split
      case _ c heq =>
        exact inv_closeLink s linkId "Relay connection closed" h
          (h.handlerInv linkId c heq)
      · exact h

theorem inv_init : Inv initState := by
  refine ⟨?_, ?_, ?_, ?_, ?_, ?_, ?_⟩ <;> simp [initState, keysOf, jsGet]

theorem inv_reachable (s : BrokerState) (h : Reachable s) : Inv s := by
  induction h with
  | init => exact inv_init
  | step s e _ ih => exact inv_stepEv s e ih

/-! ## Helper lemmas for the legacy-pointer claim (C7) -/

theorem mem_of_getLast?_eq_some {α : Type} {l : List α} {a : α}
    (h : l.getLast? = some a) : a ∈ l := by
  induction l with
  | nil => cases h
  | cons x xs ih =>
      cases xs with
      | nil =>
          simp only [List.getLast?_singleton, Option.some.injEq] at h
          simp [h]
      | cons y ys =>
          rw [List.getLast?_cons_cons] at h
          exact List.mem_cons_of_mem _ (ih h)

theorem eq_nil_of_getLast?_eq_none {α : Type} {l : List α}
    (h : l.getLast? = none) : l = [] := by
  cases l with
  | nil => rfl
  | cons x xs =>
      rw [List.getLast?_eq_getLast_of_ne_nil (List.cons_ne_nil x xs)] at h
      cases h

theorem eq_nil_of_keysOf_eq_nil {α : Type} {m : List (Nat × α)}
    (h : keysOf m = []) : m = [] := by
  cases m with
  | nil => rfl
  | cons p rest => simp [keysOf] at h

theorem jsDelete_idem {α : Type} (m : List (Nat × α)) (k : Nat) :
    jsDelete (jsDelete m k) k = jsDelete m k := by
  apply jsDelete_of_get_none
  rw [jsGet_jsDelete, if_pos rfl]

/-- The combined effect on the broker state of closing an active-stage link:
the close notification deletes the link's active entry and recomputes the
legacy pointer from the remaining keys. -/
theorem closeLink_active_spec (s : BrokerState) (t L : Nat) (r : String)
    (hH : jsGet s.handlers L = some (CloseHandler.activeFor t))
    (hC : L ∉ s.closedLinks)
    (hL : s.lastConnectedTabId = some t) :
    (closeLink s L r).1 =
      { s with
          closedLinks := L :: s.closedLinks
          activeConnections := jsDelete s.activeConnections t
          lastConnectedTabId := (keysOf (jsDelete s.activeConnections t)).getLast? } := by
  unfold closeLink
  rw [if_neg hC]
  show (runOnClose { s with closedLinks := L :: s.closedLinks } L).1 = _
  unfold runOnClose
  have hH1 : jsGet ({ s with closedLinks := L :: s.closedLinks }).handlers L
      = some (CloseHandler.activeFor t) := hH
  rw [hH1]
  dsimp only
  unfold removeConnectedTab
  dsimp only
  rw [if_pos hL]

theorem getLast?_keysOf_delete_ne (s : BrokerState) (t : Nat) :
    (keysOf (jsDelete s.activeConnections t)).getLast? ≠ some t := by
  intro hcontra
  exact not_mem_keysOf_jsDelete s.activeConnections t (mem_of_getLast?_eq_some hcontra)

/-- The state reached by `_onTabRemoved` on a tab holding an active
connection (no pending entry): the link is closed, its entry deleted, the
legacy pointer recomputed from the remaining keys. -/
theorem onTabRemoved_active_spec (s : BrokerState) (t L : Nat)
    (hP : jsGet s.pendingTabSelection t = none)
    (hA : jsGet s.activeConnections t = some L)
    (hH : jsGet s.handlers L = some (CloseHandler.activeFor t))
    (hC : L ∉ s.closedLinks)
    (hL : s.lastConnectedTabId = some t) :
    (onTabRemoved s t).1 =
      { s with
          closedLinks := L :: s.closedLinks
          activeConnections := jsDelete s.activeConnections t
          lastConnectedTabId := (keysOf (jsDelete s.activeConnections t)).getLast? } := by
  unfold onTabRemoved
  rw [hP, hA]
  show (removeConnectedTab
      { (closeLink s L "Browser tab closed").1 with
          activeConnections :=
            jsDelete (closeLink s L "Browser tab closed").1.activeConnections t } t).1 = _
  rw [closeLink_active_spec s t L _ hH hC hL]
  unfold removeConnectedTab
  rw [if_neg (by exact getLast?_keysOf_delete_ne s t)]
  show ({ s with
      closedLinks := L :: s.closedLinks
      activeConnections := jsDelete (jsDelete s.activeConnections t) t
      lastConnectedTabId := (keysOf (jsDelete s.activeConnections t)).getLast? } : BrokerState) = _
  rw [jsDelete_idem]

/-- The state reached by `_disconnect` on a tab holding an active
connection: identical shape to the `_onTabRemoved` active branch. -/
theorem disconnectOne_active_spec (s : BrokerState) (t L : Nat)
    (hA : jsGet s.activeConnections t = some L)
    (hH : jsGet s.handlers L = some (CloseHandler.activeFor t))
    (hC : L ∉ s.closedLinks)
    (hL : s.lastConnectedTabId = some t) :
    (disconnectOne s t).1 =
      { s with
          closedLinks := L :: s.closedLinks
          activeConnections := jsDelete s.activeConnections t
          lastConnectedTabId := (keysOf (jsDelete s.activeConnections t)).getLast? } := by
  unfold disconnectOne
  rw [hA]
  show (removeConnectedTab
      { (closeLink s L "User disconnected").1 with
          activeConnections :=
            jsDelete (closeLink s L "User disconnected").1.activeConnections t } t).1 = _
  rw [closeLink_active_spec s t L _ hH hC hL]
  unfold removeConnectedTab
  rw [if_neg (by exact getLast?_keysOf_delete_ne s t)]
  show ({ s with
      closedLinks := L :: s.closedLinks
      activeConnections := jsDelete (jsDelete s.activeConnections t) t
      lastConnectedTabId := (keysOf (jsDelete s.activeConnections t)).getLast? } : BrokerState) = _
  rw [jsDelete_idem]

/-! ## Claim theorems -/

/-- Claim C1: in every reachable broker state, after an event handler has
fully processed its event, a relay link is referenced by at most one of the
pending-selections map and the active-connections map, and a link that has
closed is referenced by neither. -/
theorem link_in_at_most_one_map (s : BrokerState) (hs : Reachable s) (linkId : Nat) :
    ¬(LinkPending s linkId ∧ LinkActive s linkId) ∧
      (linkId ∈ s.closedLinks → ¬LinkPending s linkId ∧ ¬LinkActive s linkId) := by
  have h := inv_reachable s hs
  constructor
  · rintro ⟨⟨sel, e, hge, hec⟩, ⟨t, hga⟩⟩
    obtain ⟨hp1, _, _⟩ := h.pendingInv sel e hge
    obtain ⟨ha1, _, _⟩ := h.activeInv t linkId hga
    rw [hec] at hp1
    rw [hp1] at ha1
    cases ha1
  · intro hcl
    constructor
    · rintro ⟨sel, e, hge, hec⟩
      obtain ⟨_, hp2, _⟩ := h.pendingInv sel e hge
      rw [hec] at hp2
      exact hp2 hcl
    · rintro ⟨t, hga⟩
      obtain ⟨_, ha2, _⟩ := h.activeInv t linkId hga
      exact ha2 hcl

/-- A concrete reachable state used to witness claim C1: a relay handshake
from tab 1 followed by a promotion binding the link to tab 2. -/
def c1WitnessState : BrokerState :=
  (stepEv ((stepEv initState
      (Event.message (PageMessage.connectToMCPRelay "ws://relay")
        ⟨1, 10, true, true, []⟩)).1)
    (Event.message (PageMessage.connectToTab (some 2) (some 10) "ws://relay")
      ⟨1, 10, true, true, []⟩)).1

/-- Witness for claim C1: the invariant instantiated at a concrete reachable
state holding one promoted link. -/
theorem link_in_at_most_one_map_witness :
    ¬(LinkPending c1WitnessState 0 ∧ LinkActive c1WitnessState 0) ∧
      (0 ∈ c1WitnessState.closedLinks →
        ¬LinkPending c1WitnessState 0 ∧ ¬LinkActive c1WitnessState 0) :=
  link_in_at_most_one_map c1WitnessState
    (Reachable.step _ _ (Reachable.step _ _ Reachable.init)) 0

/-- Claim C7: when the tab named by `LastConnectedTabId` loses its active
connection (tab closed or explicit disconnect), `LastConnectedTabId` is reset
to some tab that still has an active connection, or to none when no active
connection remains. -/
theorem lastConnectedTabId_reset_on_removal (s : BrokerState) (t L : Nat)
    (hP : jsGet s.pendingTabSelection t = none)
    (hA : jsGet s.activeConnections t = some L)
    (hH : jsGet s.handlers L = some (CloseHandler.activeFor t))
    (hC : L ∉ s.closedLinks)
    (hL : s.lastConnectedTabId = some t) :
    (((onTabRemoved s t).1.lastConnectedTabId = none ∧
        (onTabRemoved s t).1.activeConnections = []) ∨
      (∃ t2, (onTabRemoved s t).1.lastConnectedTabId = some t2 ∧
        (jsGet (onTabRemoved s t).1.activeConnections t2).isSome)) ∧
    (((disconnect s (some t)).1.lastConnectedTabId = none ∧
        (disconnect s (some t)).1.activeConnections = []) ∨
      (∃ t2, (disconnect s (some t)).1.lastConnectedTabId = some t2 ∧
        (jsGet (disconnect s (some t)).1.activeConnections t2).isSome)) := by
  have hgen : ∀ s2 : BrokerState,
      s2 = { s with
        closedLinks := L :: s.closedLinks
        activeConnections := jsDelete s.activeConnections t
        lastConnectedTabId := (keysOf (jsDelete s.activeConnections t)).getLast? } →
      ((s2.lastConnectedTabId = none ∧ s2.activeConnections = []) ∨
        (∃ t2, s2.lastConnectedTabId = some t2 ∧
          (jsGet s2.activeConnections t2).isSome)) := by
    intro s2 hs2
    subst hs2
    cases hg : (keysOf (jsDelete s.activeConnections t)).getLast? with
    | none =>
        left
        exact ⟨rfl, eq_nil_of_keysOf_eq_nil (eq_nil_of_getLast?_eq_none hg)⟩
    | some t2 =>
        right
        exact ⟨t2, rfl, jsGet_isSome_of_mem_keysOf (mem_of_getLast?_eq_some hg)⟩
  constructor
  · exact hgen _ (onTabRemoved_active_spec s t L hP hA hH hC hL)
  · exact hgen _ (disconnectOne_active_spec s t L hA hH hC hL)

/-- The spec's own example state for claim C7: active connections on tabs 3
and 7 with `LastConnectedTabId = 7`. -/
def c7WitnessState : BrokerState :=
  { activeConnections := [(3, 10), (7, 11)]
    lastConnectedTabId := some 7
    pendingTabSelection := []
    closedLinks := []
    handlers := [(10, CloseHandler.activeFor 3), (11, CloseHandler.activeFor 7)]
    boundTabs := [(10, 3), (11, 7)]
    timers := []
    nextLink := 12
    nextTimer := 0 }

/-- Witness for claim C7 at the spec's own example: removing tab 7's
connection resets the pointer to a remaining active tab, and a direct
evaluation shows it becomes 3. -/
theorem lastConnectedTabId_reset_on_removal_witness :
    (onTabRemoved c7WitnessState 7).1.lastConnectedTabId = some 3 ∧
      (((onTabRemoved c7WitnessState 7).1.lastConnectedTabId = none ∧
          (onTabRemoved c7WitnessState 7).1.activeConnections = []) ∨
        (∃ t2, (onTabRemoved c7WitnessState 7).1.lastConnectedTabId = some t2 ∧
          (jsGet (onTabRemoved c7WitnessState 7).1.activeConnections t2).isSome)) :=
  ⟨by decide,
    (lastConnectedTabId_reset_on_removal c7WitnessState 7 11 (by decide) (by decide)
      (by decide) (by decide) (by decide)).1⟩

/-- Claim C8: `disconnect(tabId)` on a tab with no active connection succeeds
and is a complete no-op: state unchanged and no effect (no link close, no
badge call) recorded. -/
theorem disconnect_missing_tab_noop (s : BrokerState) (tabId : Nat)
    (h : jsGet s.activeConnections tabId = none) :
    disconnect s (some tabId) = (s, []) := by
  unfold disconnect disconnectOne
  dsimp only
  rw [h]

/-- Witness for claim C8: disconnecting tab 5 while only tab 2 is connected
changes nothing. -/
theorem disconnect_missing_tab_noop_witness :
    disconnect
      { activeConnections := [(2, 0)]
        lastConnectedTabId := some 2
        pendingTabSelection := []
        closedLinks := []
        handlers := [(0, CloseHandler.activeFor 2)]
        boundTabs := [(0, 2)]
        timers := []
        nextLink := 1
        nextTimer := 0 } (some 5)
      = ({ activeConnections := [(2, 0)]
           lastConnectedTabId := some 2
           pendingTabSelection := []
           closedLinks := []
           handlers := [(0, CloseHandler.activeFor 2)]
           boundTabs := [(0, 2)]
           timers := []
           nextLink := 1
           nextTimer := 0 }, []) :=
  disconnect_missing_tab_noop _ 5 (by decide)

/-- Claim C9: the status query returns `LastConnectedTabId` together with all
active tab ids, the list-connections query returns one record per active
connection, and both are pure reads: same state back, no effects, and a
well-formed (non-error) response. -/
theorem status_queries_are_pure_reads (s : BrokerState) (env : Env) :
    onMessage s PageMessage.getConnectionStatus env
        = (s, [], Response.status s.lastConnectedTabId (keysOf s.activeConnections)) ∧
      onMessage s PageMessage.getAllConnections env
        = (s, [], Response.connections (keysOf s.activeConnections)) :=
  ⟨rfl, rfl⟩

/-! ### Claim C2 -/

theorem pending_removeConnectedTab (s : BrokerState) (tabId : Nat) :
    (removeConnectedTab s tabId).1.pendingTabSelection = s.pendingTabSelection := by
  unfold removeConnectedTab
  split <;> rfl

theorem pending_none_closeLink (s : BrokerState) (L : Nat) (r : String) (sel : Nat)
    (h : jsGet s.pendingTabSelection sel = none) :
    jsGet (closeLink s L r).1.pendingTabSelection sel = none := by
  unfold closeLink
  split
  · exact h
  · show jsGet (runOnClose { s with closedLinks := L :: s.closedLinks } L).1.pendingTabSelection sel = none
    unfold runOnClose
    split
    · exact h
    · rw [jsGet_jsDelete]
      split
      · rfl
      · exact h
    · rw [pending_removeConnectedTab]
      exact h

theorem pending_none_connectTabEvict (s : BrokerState) (tabId sel : Nat)
    (h : jsGet s.pendingTabSelection sel = none) :
    jsGet (connectTabEvict s tabId).1.pendingTabSelection sel = none := by
  unfold connectTabEvict
  split
  case _ existing hget =>
    exact pending_none_closeLink s existing "New connection requested for this tab" sel h
  · exact h

/-- The environment of the C2 counterexample run: messages sent from tab 1. -/
def c2Env : Env := ⟨1, 10, true, true, []⟩

/-- The C2 counterexample state: a handshake from tab 1 promoted onto tab 2,
leaving an active connection on tab 2 and no pending entry. -/
def c2State : BrokerState :=
  (stepEv ((stepEv initState
      (Event.message (PageMessage.connectToMCPRelay "ws://relay") c2Env)).1)
    (Event.message (PageMessage.connectToTab (some 2) (some 10) "ws://relay") c2Env)).1

/-- Counterexample to claim C2 as stated: with no pending entry for the
selector tab but an active connection on the target tab, `connectToTab`
fails with the no-pending error, yet it is not a no-op: the active
connection is closed and evicted and `LastConnectedTabId` is cleared. -/
theorem connectToTab_no_pending_cex :
    jsGet c2State.pendingTabSelection 1 = none ∧
      jsGet c2State.activeConnections 2 = some 0 ∧
      c2State.lastConnectedTabId = some 2 ∧
      (onMessage c2State
          (PageMessage.connectToTab (some 2) (some 10) "ws://relay") c2Env).2.2
        = Response.err "No active MCP relay connection" ∧
      (onMessage c2State
          (PageMessage.connectToTab (some 2) (some 10) "ws://relay") c2Env).1.activeConnections
        = [] ∧
      (onMessage c2State
          (PageMessage.connectToTab (some 2) (some 10) "ws://relay") c2Env).1.closedLinks
        = [0] ∧
      (onMessage c2State
          (PageMessage.connectToTab (some 2) (some 10) "ws://relay") c2Env).1.lastConnectedTabId
        = none := by
  decide

/-- Claim C2 as amended: without a pending entry for the selector tab,
`connectToTab` always fails with the no-pending error; when additionally the
target tab has no active connection (so nothing is evicted) and is not the
current `LastConnectedTabId`, the state is returned unchanged and the only
effect is the best-effort badge clear of the catch block. -/
theorem connectToTab_no_pending_amended (s : BrokerState)
    (selectorTabId tabId windowId : Nat) (hostOk : Bool)
    (hp : jsGet s.pendingTabSelection selectorTabId = none) :
    (connectTab s selectorTabId tabId windowId hostOk).2.2
        = Except.error "No active MCP relay connection" ∧
      (jsGet s.activeConnections tabId = none →
        s.lastConnectedTabId ≠ some tabId →
        connectTab s selectorTabId tabId windowId hostOk
          = (s, [Effect.badge tabId ""],
             Except.error "No active MCP relay connection")) := by
  constructor
  · unfold connectTab
    dsimp only
    have hp1 := pending_none_connectTabEvict s tabId selectorTabId hp
    unfold connectTabBind
    rw [hp1]
  · intro ha hl
    unfold connectTab connectTabEvict
    dsimp only
    rw [ha]
    unfold connectTabBind
    dsimp only
    rw [hp]
    unfold removeConnectedTab
    rw [if_neg hl]
    rfl

/-- Witness for the amended claim C2: `connectToTab` on the empty initial
state fails with the no-pending error and leaves the state unchanged. -/
theorem connectToTab_no_pending_amended_witness :
    (connectTab initState 1 2 10 true).2.2
        = Except.error "No active MCP relay connection" ∧
      connectTab initState 1 2 10 true
        = (initState, [Effect.badge 2 ""],
           Except.error "No active MCP relay connection") :=
  ⟨(connectToTab_no_pending_amended initState 1 2 10 true (by decide)).1,
    (connectToTab_no_pending_amended initState 1 2 10 true (by decide)).2
      (by decide) (by decide)⟩

/-! ### Claim C3 -/

/-- The environment of the C3 run: handshakes sent from tab 1. -/
def c3Env : Env := ⟨1, 10, true, true, []⟩

/-- The state after one successful handshake from tab 1 (link 0 pending). -/
def c3S1 : BrokerState :=
  (stepEv initState
    (Event.message (PageMessage.connectToMCPRelay "ws://relay") c3Env)).1

/-- The second handshake from tab 1, which overwrites the pending entry. -/
def c3Step2 : BrokerState × List Effect :=
  stepEv c3S1 (Event.message (PageMessage.connectToMCPRelay "ws://relay") c3Env)

/-- Claim C3 evaluated at the failing input: a second successful handshake
from the same selector tab overwrites the pending entry with the new link,
but the stale link 0 is never closed (no link is closed at all, and no close
effect is emitted); the claim requires the previously pending link to be
closed before replacement. -/
theorem connectToRelay_leaks_stale_pending :
    jsGet c3S1.pendingTabSelection 1 = some ⟨0, none⟩ ∧
      jsGet c3Step2.1.pendingTabSelection 1 = some ⟨1, none⟩ ∧
      c3Step2.1.closedLinks = [] ∧
      c3Step2.2 = [] := by
  decide

/-! ### Claim C4 -/

/-- The C4 run: handshakes from tabs 2 and 3 leave two timerless pending
entries. -/
def c4State : BrokerState :=
  (stepEv ((stepEv initState
      (Event.message (PageMessage.connectToMCPRelay "ws://relay")
        ⟨2, 10, true, true, []⟩)).1)
    (Event.message (PageMessage.connectToMCPRelay "ws://relay")
      ⟨3, 10, true, true, []⟩)).1

/-- Claim C4 evaluated at the failing input: with pending entries for tabs 2
and 3 (neither armed) and an activation event for tab 1, the handler arms a
5000 ms timer for tab 2 only and returns early, leaving tab 3 without a
timer; the claim requires the whole pending set to be processed. -/
theorem onTabActivated_arms_only_first :
    jsGet c4State.pendingTabSelection 2 = some ⟨0, none⟩ ∧
      jsGet c4State.pendingTabSelection 3 = some ⟨1, none⟩ ∧
      jsGet (onTabActivated c4State 1).pendingTabSelection 2 = some ⟨0, some 0⟩ ∧
      jsGet (onTabActivated c4State 1).pendingTabSelection 3 = some ⟨1, none⟩ ∧
      (onTabActivated c4State 1).timers = [⟨0, 5000, 2, 0⟩] := by
  decide

/-! ### Claim C5 -/

/-- The C5 run: handshakes from tab 2 then tab 1; two activations of an
unrelated tab 9 arm timers for both; an activation of tab 2 clears tab 2's
timer.  The resulting state has a timerless pending entry for tab 2 sitting
before tab 1's armed entry in iteration order. -/
def c5State : BrokerState :=
  (stepEv ((stepEv ((stepEv ((stepEv ((stepEv initState
      (Event.message (PageMessage.connectToMCPRelay "ws://relay")
        ⟨2, 10, true, true, []⟩)).1)
      (Event.message (PageMessage.connectToMCPRelay "ws://relay")
        ⟨1, 10, true, true, []⟩)).1)
      (Event.tabActivated 9)).1)
      (Event.tabActivated 9)).1)
      (Event.tabActivated 2)).1

/-- The C5 state after the activation event reporting tab 1 focused. -/
def c5After : BrokerState := (stepEv c5State (Event.tabActivated 1)).1

/-- Claim C5 evaluated at the failing input: tab 1 has an armed timer
(handle 1) and tab 2's timerless entry precedes it; the activation event for
tab 1 arms a timer for tab 2 and returns early without cancelling tab 1's
timer, which subsequently fires, removes tab 1's pending entry, closes its
link, and sends the `connectionTimeout` notification although tab 1 was
focused; the claim requires the timer to have been cancelled. -/
theorem onTabActivated_misses_focused_timer :
    jsGet c5State.pendingTabSelection 2 = some ⟨0, none⟩ ∧
      jsGet c5State.pendingTabSelection 1 = some ⟨1, some 1⟩ ∧
      c5State.timers = [⟨1, 5000, 1, 1⟩] ∧
      jsGet c5After.pendingTabSelection 1 = some ⟨1, some 1⟩ ∧
      c5After.timers = [⟨2, 5000, 2, 0⟩, ⟨1, 5000, 1, 1⟩] ∧
      (stepEv c5After (Event.timerFired 1)).2
        = [Effect.closeLink 1 "Tab has been inactive for 5 seconds",
           Effect.sendMessage 1 "connectionTimeout"] ∧
      jsGet (stepEv c5After (Event.timerFired 1)).1.pendingTabSelection 1 = none := by
  decide

/-! ### Claim C6 -/

/-- The C6 run, first stage: a handshake from tab 1 and an activation of an
unrelated tab 9 leave a pending entry for tab 1 with an armed timer. -/
def c6Armed : BrokerState :=
  (stepEv ((stepEv initState
      (Event.message (PageMessage.connectToMCPRelay "ws://relay")
        ⟨1, 10, true, true, []⟩)).1)
    (Event.tabActivated 9)).1

/-- The C6 promotion stage: `connectToTab` binds the pending link to tab 5. -/
def c6Promoted : BrokerState :=
  (stepEv c6Armed
    (Event.message (PageMessage.connectToTab (some 5) (some 3) "ws://relay")
      ⟨1, 10, true, true, []⟩)).1

/-- The C6 tab-close stage: the selector tab 1 closes. -/
def c6Removed : BrokerState := (stepEv c6Armed (Event.tabRemoved 1)).1

/-- Claim C6 evaluated at the failing inputs: a pending entry for tab 1 with
an armed timer (handle 0) is promoted to an active connection, and in a
second run its selector tab closes; in both cases the timer remains armed
afterwards, while the claim requires it to be cancelled. -/
theorem timers_survive_promotion_and_tab_close :
    jsGet c6Armed.pendingTabSelection 1 = some ⟨0, some 0⟩ ∧
      c6Armed.timers = [⟨0, 5000, 1, 0⟩] ∧
      jsGet c6Promoted.activeConnections 5 = some 0 ∧
      jsGet c6Promoted.pendingTabSelection 1 = none ∧
      c6Promoted.timers = [⟨0, 5000, 1, 0⟩] ∧
      jsGet c6Removed.pendingTabSelection 1 = none ∧
      c6Removed.closedLinks = [0] ∧
      c6Removed.timers = [⟨0, 5000, 1, 0⟩] := by
  decide

/-! ### Claim C10 -/

/-- The C10 run: handshake from tab 1, timer armed by an activation of tab 9,
promotion onto tab 5 (which removes the pending entry but, per C6, leaves the
timer armed). -/
def c10Promoted : BrokerState :=
  (stepEv ((stepEv ((stepEv initState
      (Event.message (PageMessage.connectToMCPRelay "ws://relay")
        ⟨1, 10, true, true, []⟩)).1)
      (Event.tabActivated 9)).1)
    (Event.message (PageMessage.connectToTab (some 5) (some 3) "ws://relay")
      ⟨1, 10, true, true, []⟩)).1

/-- The C10 state after a second handshake from tab 1 creates a replacement
pending entry while the stale timer is still armed. -/
def c10Rearmed : BrokerState :=
  (stepEv c10Promoted
    (Event.message (PageMessage.connectToMCPRelay "ws://relay")
      ⟨1, 10, true, true, []⟩)).1

/-- Counterexample to claim C10 as stated: the timer's pending entry was
removed by promotion, yet when the timer fires it is not a no-op: a
replacement pending entry for tab 1 exists, so the callback deletes that
replacement entry, closes the captured link 0 (by now the active connection
of tab 5, which is thereby evicted), and sends the `connectionTimeout`
notification to tab 1. -/
theorem fireTimer_after_removal_cex :
    jsGet c10Promoted.pendingTabSelection 1 = none ∧
      c10Promoted.timers = [⟨0, 5000, 1, 0⟩] ∧
      jsGet c10Promoted.activeConnections 5 = some 0 ∧
      jsGet c10Rearmed.pendingTabSelection 1 = some ⟨1, none⟩ ∧
      (stepEv c10Rearmed (Event.timerFired 0)).2
        = [Effect.closeLink 0 "Tab has been inactive for 5 seconds",
           Effect.badge 5 "",
           Effect.sendMessage 1 "connectionTimeout"] ∧
      (stepEv c10Rearmed (Event.timerFired 0)).1.activeConnections = [] ∧
      jsGet (stepEv c10Rearmed (Event.timerFired 0)).1.pendingTabSelection 1 = none := by
  decide

/-- Claim C10 as amended: the timer callback has no effect exactly when no
pending entry (original or replacement) exists for the captured tab at firing
time: it then only unregisters its own handle; when any entry is present the
callback removes it, closes the captured link, and sends the notification. -/
theorem fireTimer_noop_without_entry (s : BrokerState) (t : Timer)
    (h : jsGet s.pendingTabSelection t.capturedTabId = none) :
    fireTimer s t
      = ({ s with timers := s.timers.filter (fun u => u.handle ≠ t.handle) }, []) := by
  unfold fireTimer
  dsimp only
  rw [h, jsDelete_of_get_none h]
  rfl

/-- Witness for the amended claim C10: a lone armed timer for tab 1 fires in
a state without a pending entry for tab 1 and does nothing but unregister
itself. -/
theorem fireTimer_noop_without_entry_witness :
    fireTimer { initState with timers := [⟨0, 5000, 1, 0⟩] } ⟨0, 5000, 1, 0⟩
      = ({ initState with
            timers := List.filter (fun u => u.handle ≠ 0) [⟨0, 5000, 1, 0⟩] }, []) :=
  fireTimer_noop_without_entry { initState with timers := [⟨0, 5000, 1, 0⟩] }
    ⟨0, 5000, 1, 0⟩ (by decide)

end TabShare
